import Mathlib

/-!
Verification of the spotify-wrapped ingestion pipeline and query layer.

The development is a shallow embedding of the repository code:
  * `scripts/spotify_data_model.py` : record model, dedup identity key
  * `scripts/parse_spotify_data.py` : text normalizer, parsing, dedup,
    dataframe construction, persistence
  * `dashboard/app.py`              : summary stats, top-N, search, trends
  * `scripts/top_artists_script.py` : CLI top artists
  * `scripts/song_stats.py`         : CLI song search

Python strings are modelled as lists of code points ( `List Char` ),
dynamically typed JSON field values as the inductive `JVal`, and the
loaded dataframe rows as the structure `Row`.
-/

namespace SpotifyWrapped

/-- A JSON / Python value as stored in a raw export field: null, a string,
an integer, or a boolean.  This is the dynamic type of every field that
`SpotifyStreamingRecord.from_dict` copies out of the raw mapping. -/
inductive JVal where
  | null : JVal
  | str  : String → JVal
  | int  : Int → JVal
  | bool : Bool → JVal
deriving DecidableEq

/-- Python truthiness of a `JVal`: None and the empty string and 0 and
False are falsy, everything else is truthy. -/
def JVal.truthy : JVal → Bool
  | .null => false
  | .str s => s ≠ ""
  | .int n => n ≠ 0
  | .bool b => b

/-- The Python expression `a or b`: returns `a` when `a` is truthy,
otherwise `b`. -/
def pyOr (a b : JVal) : JVal :=
  if a.truthy then a else b

/-- A raw JSON object is a finite key-value mapping; `dget d k dflt`
models the Python call `d.get(k, dflt)`: the stored value when the key is
present (even when that value is null), otherwise the default. -/
def dget (d : List (String × JVal)) (k : String) (dflt : JVal) : JVal :=
  (d.lookup k).getD dflt

/-- `scripts/spotify_data_model.py` lines 9-34: the dataclass
`SpotifyStreamingRecord`.  Python does not enforce the annotated field
types, and `from_dict` stores whatever value the raw mapping holds, so
every field is a `JVal`. -/
structure SpotifyStreamingRecord where
  ts : JVal
  platform : JVal
  ms_played : JVal
  conn_country : JVal
  ip_addr : JVal
  master_metadata_track_name : JVal
  master_metadata_album_artist_name : JVal
  master_metadata_album_album_name : JVal
  spotify_track_uri : JVal
  episode_name : JVal
  episode_show_name : JVal
  spotify_episode_uri : JVal
  audiobook_title : JVal
  audiobook_uri : JVal
  audiobook_chapter_uri : JVal
  audiobook_chapter_title : JVal
  reason_start : JVal
  reason_end : JVal
  shuffle : JVal
  skipped : JVal
  offline : JVal
  offline_timestamp : JVal
  incognito_mode : JVal
deriving DecidableEq

/-- `SpotifyStreamingRecord.from_dict` (spotify_data_model.py lines
36-63): each field is read with `data.get`; `ts` defaults to the empty
string, `ms_played` to 0, every other field to None. -/
def SpotifyStreamingRecord.from_dict (data : List (String × JVal)) :
    SpotifyStreamingRecord where
  ts := dget data "ts" (.str "")
  platform := dget data "platform" .null
  ms_played := dget data "ms_played" (.int 0)
  conn_country := dget data "conn_country" .null
  ip_addr := dget data "ip_addr" .null
  master_metadata_track_name := dget data "master_metadata_track_name" .null
  master_metadata_album_artist_name :=
    dget data "master_metadata_album_artist_name" .null
  master_metadata_album_album_name :=
    dget data "master_metadata_album_album_name" .null
  spotify_track_uri := dget data "spotify_track_uri" .null
  episode_name := dget data "episode_name" .null
  episode_show_name := dget data "episode_show_name" .null
  spotify_episode_uri := dget data "spotify_episode_uri" .null
  audiobook_title := dget data "audiobook_title" .null
  audiobook_uri := dget data "audiobook_uri" .null
  audiobook_chapter_uri := dget data "audiobook_chapter_uri" .null
  audiobook_chapter_title := dget data "audiobook_chapter_title" .null
  reason_start := dget data "reason_start" .null
  reason_end := dget data "reason_end" .null
  shuffle := dget data "shuffle" .null
  skipped := dget data "skipped" .null
  offline := dget data "offline" .null
  offline_timestamp := dget data "offline_timestamp" .null
  incognito_mode := dget data "incognito_mode" .null

/-- `SpotifyStreamingRecord.get_unique_key` (spotify_data_model.py lines
93-98): `content_uri = self.spotify_track_uri or self.spotify_episode_uri
or self.audiobook_uri` (Python or-chain on truthiness), key =
`(self.ts, content_uri, self.ms_played)`. -/
def SpotifyStreamingRecord.get_unique_key (r : SpotifyStreamingRecord) :
    JVal × JVal × JVal :=
  (r.ts, pyOr r.spotify_track_uri (pyOr r.spotify_episode_uri r.audiobook_uri),
    r.ms_played)

/-- A decoded raw JSON array element: either a key-value object, or some
other JSON value (array, number, string, ...) on which `from_dict`
raises — abstracted by a tag because only the failure matters. -/
inductive RawItem where
  | obj : List (String × JVal) → RawItem
  | nonObj : Nat → RawItem
deriving DecidableEq

/-- One `parse` attempt for a raw item: `from_dict` succeeds on every
key-value mapping and raises (AttributeError on `.get`) when the item is
not a mapping. -/
def parseItem : RawItem → Except String SpotifyStreamingRecord
  | .obj d => .ok (SpotifyStreamingRecord.from_dict d)
  | .nonObj _ => .error "Failed to parse record"

/-- `parse_records` (parse_spotify_data.py lines 50-60): try each item,
append on success, warn and continue on failure. -/
def parse_records : List RawItem → List SpotifyStreamingRecord
  | [] => []
  | item :: rest =>
    match parseItem item with
    | .ok r => r :: parse_records rest
    | .error _ => parse_records rest

/-- The number of warnings `parse_records` prints: one per failing item. -/
def parse_records_warnings (items : List RawItem) : Nat :=
  items.countP fun item => (parseItem item).isOk = false

/-- `deduplicate_records` inner loop (parse_spotify_data.py lines 63-79),
generalized over the set of already-seen keys (the Python `seen_keys`
set is modelled as a list queried by membership). -/
def dedupLoop (seen : List (JVal × JVal × JVal)) :
    List SpotifyStreamingRecord → List SpotifyStreamingRecord
  | [] => []
  | r :: rs =>
    if r.get_unique_key ∈ seen then
      dedupLoop seen rs
    else
      r :: dedupLoop (r.get_unique_key :: seen) rs

/-- `deduplicate_records` (parse_spotify_data.py lines 63-79): keep a
record iff its unique key was not seen before. -/
def deduplicate_records (records : List SpotifyStreamingRecord) :
    List SpotifyStreamingRecord :=
  dedupLoop [] records

/-- Modelled from the spec (§3 Deduplication identity, the wording under
check in C1): content_uri is the track uri if PRESENT (i.e. not null),
else the episode uri if present, else the audiobook uri if present, else
absent.  Presence, unlike Python truthiness, does not skip an
empty-string value. -/
def spec_content_uri (r : SpotifyStreamingRecord) : JVal :=
  if r.spotify_track_uri ≠ .null then r.spotify_track_uri
  else if r.spotify_episode_uri ≠ .null then r.spotify_episode_uri
  else if r.audiobook_uri ≠ .null then r.audiobook_uri
  else .null

/-- Modelled from the spec: the identity key with the spec wording of
content_uri. -/
def spec_unique_key (r : SpotifyStreamingRecord) : JVal × JVal × JVal :=
  (r.ts, spec_content_uri r, r.ms_played)

/-- Modelled from the spec: deduplication driven by `spec_unique_key`,
for comparison with the code (first-seen-kept loop, identical shape). -/
def spec_dedupLoop (seen : List (JVal × JVal × JVal)) :
    List SpotifyStreamingRecord → List SpotifyStreamingRecord
  | [] => []
  | r :: rs =>
    if spec_unique_key r ∈ seen then
      spec_dedupLoop seen rs
    else
      r :: spec_dedupLoop (spec_unique_key r :: seen) rs

/-- Modelled from the spec: deduplicate with the spec identity key. -/
def spec_deduplicate (records : List SpotifyStreamingRecord) :
    List SpotifyStreamingRecord :=
  spec_dedupLoop [] records

/-! ## Text normalizer (parse_spotify_data.py lines 14-38) -/

/-- ASCII apostrophe, the target of the single-quote replacements. -/
def apos : Char := Char.ofNat 39

/-- ASCII double quote, the target of the double-quote replacements. -/
def quot : Char := Char.ofNat 34

/-- The replacement table of `normalize_text`, in source (dict
insertion) order: right/left single quotation marks map to the ASCII
apostrophe; left/right/low-9/high-reversed-9 double quotation marks map
to the ASCII double quote. -/
def replacements : List (Char × Char) :=
  [(Char.ofNat 0x2019, apos), (Char.ofNat 0x2018, apos),
   (Char.ofNat 0x201C, quot), (Char.ofNat 0x201D, quot),
   (Char.ofNat 0x201E, quot), (Char.ofNat 0x201F, quot)]

/-- One `text.replace(old, new)` call for a single-character pattern:
replace every occurrence of `p.1` by `p.2`. -/
def applyRepl (s : List Char) (p : Char × Char) : List Char :=
  s.map fun c => if c = p.1 then p.2 else c

/-- `normalize_text` (parse_spotify_data.py lines 14-38) on the string
payload: apply the six replacements in order. -/
def normalizeStr (s : List Char) : List Char :=
  replacements.foldl applyRepl s

/-- `normalize_text`: None passes through unchanged (the `pd.isna`
branch), a string gets the six quote replacements. -/
def normalize_text : Option (List Char) → Option (List Char)
  | none => none
  | some s => some (normalizeStr s)

/-- The six replacements act pointwise on characters; `normChar` is that
character map (used to state that no other character is altered). -/
def normChar (c : Char) : Char :=
  if c = Char.ofNat 0x2019 ∨ c = Char.ofNat 0x2018 then apos
  else if c = Char.ofNat 0x201C ∨ c = Char.ofNat 0x201D ∨
      c = Char.ofNat 0x201E ∨ c = Char.ofNat 0x201F then quot
  else c

/-- The six curly-quote code points the normalizer rewrites. -/
def curlyChars : List Char :=
  [Char.ofNat 0x2019, Char.ofNat 0x2018, Char.ofNat 0x201C,
   Char.ofNat 0x201D, Char.ofNat 0x201E, Char.ofNat 0x201F]

/-! ## Timestamps and dataframe rows

The ingestion pipeline converts the ISO timestamp strings to datetime
values (parse_spotify_data.py line 88, app.py line 28); a datetime is
modelled as its calendar year and month plus an abstract sub-month
position (day/time within the month), ordered lexicographically. -/

/-- A resolved timestamp: calendar year, month, and position inside the
month (day and time, abstracted into one number). -/
structure Dt where
  year : Nat
  month : Nat
  sub : Nat
deriving DecidableEq

/-- Chronological order on timestamps (lexicographic). -/
def Dt.le (a b : Dt) : Prop :=
  a.year < b.year ∨ (a.year = b.year ∧
    (a.month < b.month ∨ (a.month = b.month ∧ a.sub ≤ b.sub)))

instance : DecidablePred fun p : Dt × Dt => Dt.le p.1 p.2 := by
  intro p
  unfold Dt.le
  infer_instance

instance (a b : Dt) : Decidable (Dt.le a b) := by
  unfold Dt.le
  infer_instance

/-- The calendar year-month bucket of a timestamp, modelling
`ts.dt.to_period("M")` (app.py line 714); the zero-padded "YYYY-MM"
period strings of the source order exactly like these pairs. -/
def Dt.period (a : Dt) : Nat × Nat :=
  (a.year, a.month)

/-- Chronological (lexicographic) order on year-month buckets, as a
Bool form. -/
def periodLe (a b : Nat × Nat) : Bool :=
  a.1 < b.1 ∨ (a.1 = b.1 ∧ a.2 ≤ b.2)

/-- Strict chronological order on year-month buckets. -/
def periodLt (a b : Nat × Nat) : Prop :=
  a.1 < b.1 ∨ (a.1 = b.1 ∧ a.2 < b.2)

/-- `periodLe` as a relation, with the order instances the sort needs. -/
def periodLeP (a b : Nat × Nat) : Prop :=
  periodLe a b = true

instance : DecidableRel periodLeP := fun a b => by
  unfold periodLeP
  infer_instance

instance : IsTotal (Nat × Nat) periodLeP where
  total a b := by
    simp only [periodLeP, periodLe, decide_eq_true_eq]
    omega

instance : IsTrans (Nat × Nat) periodLeP where
  trans a b c hab hbc := by
    simp only [periodLeP, periodLe, decide_eq_true_eq] at hab hbc ⊢
    omega

/-- One row of the loaded tabular store (the parquet dataframe), with
the columns the verified queries read.  Text columns hold Python
strings ( `List Char` ); absent values (NaN) are `none`. -/
structure Row where
  ts : Dt
  ms_played : Int
  master_metadata_track_name : Option (List Char)
  master_metadata_album_artist_name : Option (List Char)
  master_metadata_album_album_name : Option (List Char)
  spotify_track_uri : Option (List Char)
  episode_name : Option (List Char)
  episode_show_name : Option (List Char)
  spotify_episode_uri : Option (List Char)
  audiobook_title : Option (List Char)
  audiobook_uri : Option (List Char)
  audiobook_chapter_title : Option (List Char)
deriving DecidableEq

/-- `create_dataframe` normalization step (parse_spotify_data.py lines
90-104): `normalize_text` applied to the seven text columns. -/
def normalizeRow (r : Row) : Row :=
  { r with
    master_metadata_track_name := normalize_text r.master_metadata_track_name
    master_metadata_album_artist_name :=
      normalize_text r.master_metadata_album_artist_name
    master_metadata_album_album_name :=
      normalize_text r.master_metadata_album_album_name
    episode_name := normalize_text r.episode_name
    episode_show_name := normalize_text r.episode_show_name
    audiobook_title := normalize_text r.audiobook_title
    audiobook_chapter_title := normalize_text r.audiobook_chapter_title }

/-- `df.sort_values("ts")` (parse_spotify_data.py line 107) with the
pandas default algorithm (quicksort): the library contract promises a
permutation of the rows that is nondecreasing in the sort column, and
nothing more — the pandas documentation names mergesort/stable as the
only stable kinds, so the tie order of the default is unspecified and
the call is modelled as a relation admitting every sorted permutation. -/
def sort_values_ts (input output : List Row) : Prop :=
  output.Perm input ∧ output.Pairwise fun a b => Dt.le a.ts b.ts

/-- `create_dataframe` (parse_spotify_data.py lines 82-109) on rows
whose timestamps are already resolved: normalize the seven text columns,
then sort by timestamp with `sort_values_ts`. -/
def create_dataframe (records output : List Row) : Prop :=
  sort_values_ts (records.map normalizeRow) output

/-- A sort of `input` keeps ties in encounter order exactly when, for
every timestamp, the rows carrying that timestamp read the same in
`input` and in `output` (the standard characterization of a stable
sort). -/
def tiesInEncounterOrder (input output : List Row) : Prop :=
  ∀ t : Dt, output.filter (fun r => r.ts = t) = input.filter (fun r => r.ts = t)

/-! ## Query layer (dashboard/app.py and the CLI scripts) -/

/-- Python `s.lower()` (per code point). -/
def lowerPy (s : List Char) : List Char :=
  s.map Char.toLower

/-- Python `q in hay` / `Series.str.contains` substring test: `q` occurs
contiguously inside `hay`. -/
def containsPy (hay q : List Char) : Bool :=
  decide (q <:+: hay)

/-- The dashboard year filter (`filtered[filtered["year"] == year]`,
with `year` either the sentinel "all" — here `none` — or a calendar
year); `df["year"]` is `ts.dt.year` (app.py line 30). -/
def filterYear (year : Option Nat) (df : List Row) : List Row :=
  match year with
  | none => df
  | some y => df.filter fun r => decide (r.ts.year = y)

/-- The four figures `update_stats` returns.  Hours are exact rationals
(the float arithmetic of the source computes the same expression). -/
structure Stats where
  total_plays : Nat
  total_hours : ℚ
  unique_songs : Nat
  unique_artists : Nat
deriving DecidableEq

/-- `df["minutes"] = df["ms_played"] / 60000` (app.py line 29). -/
def rowMinutes (r : Row) : ℚ :=
  (r.ms_played : ℚ) / 60000

/-- `update_stats` (app.py lines 372-391): plays and hours over every
filtered row; the unique counts are taken after restricting to rows
whose `master_metadata_track_name` is non-null, and `nunique` ignores
null values. -/
def update_stats (year : Option Nat) (df : List Row) : Stats :=
  let filtered := filterYear year df
  let tracks_only := filtered.filter fun r =>
    r.master_metadata_track_name.isSome
  { total_plays := filtered.length
    total_hours := (filtered.map rowMinutes).sum / 60
    unique_songs :=
      (tracks_only.filterMap fun r => r.master_metadata_track_name).dedup.length
    unique_artists :=
      (tracks_only.filterMap fun r =>
        r.master_metadata_album_artist_name).dedup.length }

/-- Modelled from the spec (§4.4 `summary_stats`, the wording under
check in C5): the unique counts are taken over the records classified as
songs by a PRESENT `track_uri`. -/
def spec_summary_stats (year : Option Nat) (df : List Row) : Stats :=
  let filtered := filterYear year df
  let songs := filtered.filter fun r => r.spotify_track_uri.isSome
  { total_plays := filtered.length
    total_hours := (filtered.map rowMinutes).sum / 60
    unique_songs :=
      (songs.filterMap fun r => r.master_metadata_track_name).dedup.length
    unique_artists :=
      (songs.filterMap fun r =>
        r.master_metadata_album_artist_name).dedup.length }

/-- Lexicographic order on Python strings, as pandas sorts group keys. -/
def strLe : List Char → List Char → Bool
  | [], _ => true
  | _ :: _, [] => false
  | a :: as, b :: bs => if a < b then true else if a = b then strLe as bs else false

/-- Lexicographic order on (song, artist) group keys. -/
def pairStrLe (x y : List Char × List Char) : Bool :=
  if x.1 = y.1 then strLe x.2 y.2 else strLe x.1 y.1

/-- The sorted distinct artist keys of a row set: pandas
`groupby("master_metadata_album_artist_name")` collects the distinct
non-null keys and sorts them ascending. -/
def artistKeys (rows : List Row) : List (List Char) :=
  ((rows.filterMap fun r =>
    r.master_metadata_album_artist_name).dedup).insertionSort
      fun a b => strLe a b = true

/-- One group row of the dashboard top-artists aggregation. -/
structure ArtistGroup where
  artist : List Char
  total_ms : Int
  plays : Nat
deriving DecidableEq

/-- `Series.round(1)` on an exact rational (the binary-float half-even
rounding of numpy can differ from rational rounding only at exact
midpoints; no statement below depends on a midpoint). -/
def round1 (q : ℚ) : ℚ :=
  (round (10 * q) : ℚ) / 10

/-- The `top_n` adjustment of `update_top_artists` (app.py lines
400-402): `if not top_n or top_n < 1: top_n = 10` then
`top_n = min(top_n, 100)`. -/
def adjust_top_n (v : Option Int) : Int :=
  min (match v with | none => 10 | some x => if x < 1 then 10 else x) 100

/-- `update_top_artists` (app.py lines 399-417): filter by year, keep
rows with a non-null artist, group by artist with the summed play time
and the count of non-null track names, attach rounded hours, and keep
the `top_n` groups largest by hours (`nlargest` keeps the first of equal
rows, i.e. is a stable descending selection). -/
def update_top_artists (year : Option Nat) (top_n : Option Int)
    (df : List Row) : List (ArtistGroup × ℚ) :=
  let n := adjust_top_n top_n
  let filtered := (filterYear year df).filter fun r =>
    r.master_metadata_album_artist_name.isSome
  let groups := (artistKeys filtered).map fun a =>
    let g := filtered.filter fun r =>
      decide (r.master_metadata_album_artist_name = some a)
    ({ artist := a
       total_ms := (g.map fun r => r.ms_played).sum
       plays := (g.filter fun r =>
         r.master_metadata_track_name.isSome).length } : ArtistGroup)
  let withHours := groups.map fun g => (g, round1 ((g.total_ms : ℚ) / 3600000))
  (withHours.insertionSort fun x y => y.2 ≤ x.2).take n.toNat

/-- One result row of the CLI top-artists query. -/
structure CliArtistRow where
  artist : List Char
  total_ms : Int
  play_count : Nat
deriving DecidableEq

/-- `DataFrame.head(n)` semantics: the first `n` rows for `n ≥ 0`, all
rows but the last `|n|` for negative `n`. -/
def pdHead (n : Int) (l : List CliArtistRow) : List CliArtistRow :=
  if 0 ≤ n then l.take n.toNat else l.take (l.length - (-n).toNat)

/-- `get_top_artists` (top_artists_script.py lines 9-76): filter by
year, keep rows with a non-null artist (both source early returns on an
empty row set only shortcut to the empty result produced anyway), group
by artist summing play time with the group size as play count, sort by
`total_ms` descending (the unspecified tie order of the source default
sort is modelled as stable; no statement below depends on a tie), and
apply `head(top_n)` — the `top_n` parameter itself is NOT adjusted. -/
def get_top_artists (year : Option Nat) (top_n : Int) (df : List Row) :
    List CliArtistRow :=
  let df_filtered := filterYear year df
  let df_tracks := df_filtered.filter fun r =>
    r.master_metadata_album_artist_name.isSome
  let groups := (artistKeys df_tracks).map fun a =>
    let g := df_tracks.filter fun r =>
      decide (r.master_metadata_album_artist_name = some a)
    ({ artist := a
       total_ms := (g.map fun r => r.ms_played).sum
       play_count := g.length } : CliArtistRow)
  pdHead top_n (groups.insertionSort fun x y => y.total_ms ≤ x.total_ms)

/-- One (song, artist) group with its aggregates, shared by the
dashboard song search and the CLI song stats. -/
structure SongGroup where
  song : List Char
  artist : List Char
  total_ms : Int
  plays : Nat
deriving DecidableEq

/-- The sorted distinct (song, artist) keys of a row set: a pandas
groupby on two columns drops rows where either key is null and sorts
the remaining distinct key pairs ascending. -/
def pairKeys (rows : List Row) : List (List Char × List Char) :=
  ((rows.filterMap fun r =>
    match r.master_metadata_track_name, r.master_metadata_album_artist_name with
    | some t, some a => some (t, a)
    | _, _ => none).dedup).insertionSort fun p q => pairStrLe p q = true

/-- Group a row set by (song, artist) with summed play time and group
size as play count (`ts`/`ms_played` are never null, so their pandas
count is the group size). -/
def groupSongArtist (rows : List Row) : List SongGroup :=
  (pairKeys rows).map fun p =>
    let g := rows.filter fun r =>
      decide (r.master_metadata_track_name = some p.1 ∧
        r.master_metadata_album_artist_name = some p.2)
    { song := p.1
      artist := p.2
      total_ms := (g.map fun r => r.ms_played).sum
      plays := g.length }

/-- `search_song` (app.py lines 520-557): no click or a falsy (missing
or empty) query returns the empty result; otherwise rows whose
lower-cased track name contains the lower-cased query are grouped by
(song, artist) and sorted by play count descending.  (The source passes
the query to `str.contains` as a regular expression; for queries free of
regex metacharacters — all queries below — that is plain substring
containment.) -/
def search_song (n_clicks : Nat) (q : Option (List Char)) (df : List Row) :
    List SongGroup :=
  match q with
  | none => []
  | some qs =>
    if n_clicks = 0 ∨ qs = [] then []
    else
      let matchedRows := df.filter fun r =>
        match r.master_metadata_track_name with
        | some nm => containsPy (lowerPy nm) (lowerPy qs)
        | none => false
      (groupSongArtist matchedRows).insertionSort fun x y => y.plays ≤ x.plays

/-- `get_song_stats` (song_stats.py lines 9-92): keep rows with both a
non-null track name and a non-null track uri (the source early returns
on empty row sets only shortcut to the empty result produced anyway);
match the query against the lower-cased track name — exactly, or by
literal substring containment (`regex=False`); group by (song, artist)
and sort by play count descending.  No emptiness or whitespace check is
applied to the query. -/
def get_song_stats (exact : Bool) (q : List Char) (df : List Row) :
    List SongGroup :=
  let df_tracks := df.filter fun r =>
    r.master_metadata_track_name.isSome && r.spotify_track_uri.isSome
  let matchedRows := df_tracks.filter fun r =>
    match r.master_metadata_track_name with
    | some nm =>
      if exact then decide (lowerPy nm = lowerPy q)
      else containsPy (lowerPy nm) (lowerPy q)
    | none => false
  (groupSongArtist matchedRows).insertionSort fun x y => y.plays ≤ x.plays

/-- One month bucket of the listening-trends aggregation. -/
structure TrendRow where
  month : Nat × Nat
  total_ms : Int
  plays : Nat
deriving DecidableEq

/-- The sorted distinct year-month buckets of a row set (pandas groupby
on the period column sorts its keys ascending). -/
def monthKeys (df : List Row) : List (Nat × Nat) :=
  ((df.map fun r => r.ts.period).dedup).insertionSort periodLeP

/-- `update_trends` (app.py lines 711-745): bucket rows by the calendar
year-month of their timestamp, sum `ms_played` over the whole bucket,
and count the non-null `master_metadata_track_name` values of the bucket
as `plays`. -/
def update_trends (df : List Row) : List TrendRow :=
  (monthKeys df).map fun m =>
    { month := m
      total_ms :=
        ((df.filter fun r => decide (r.ts.period = m)).map
          fun r => r.ms_played).sum
      plays := (df.filter fun r =>
        decide (r.ts.period = m) && r.master_metadata_track_name.isSome).length }

/-! ## Persistence (parse_spotify_data.py `main`, lines 150-166) -/

/-- The content a path can hold: a fully written table of some version,
or the half-written remains of an interrupted write. -/
inductive FileData where
  | complete : Nat → FileData
  | torn : Nat → FileData
deriving DecidableEq

/-- A file system: an association of paths to file contents. -/
abbrev FS := List (String × FileData)

/-- Overwrite the content at a path (reads take the newest entry, so
prepending is overwriting). -/
def fsSet (fs : FS) (p : String) (d : FileData) : FS :=
  (p, d) :: fs

/-- Read the content at a path. -/
def fsGet (fs : FS) (p : String) : Option FileData :=
  fs.lookup p

/-- The authoritative columnar store file written by `main`. -/
def parquet_path : String := "spotify_streaming_history.parquet"

/-- The convenience CSV mirror written by `main`. -/
def csv_path : String := "spotify_streaming_history.csv"

/-- The convenience SQLite mirror written by `main`. -/
def db_path : String := "spotify_streaming_history.db"

/-- The output paths `main` writes, in source order (lines 150-166).
Every write targets its final path directly; no temporary file is
involved anywhere in `main`. -/
def persist_targets : List String :=
  [parquet_path, csv_path, db_path]

/-- Run a sequence of direct writes of version `v`: with no failure each
target ends complete; failing during the write of target `k` leaves that
target torn and the rest untouched. -/
def writeSeq (fs : FS) (v : Nat) : List String → Option Nat → FS
  | [], _ => fs
  | p :: ps, none => writeSeq (fsSet fs p (.complete v)) v ps none
  | _p :: _, some 0 => fsSet fs _p (.torn v)
  | p :: ps, some (k + 1) => writeSeq (fsSet fs p (.complete v)) v ps (some k)

/-- The persistence step of `main` (lines 150-166): direct sequential
writes of the parquet, CSV and SQLite outputs, each to its final path. -/
def run_persist (fs : FS) (v : Nat) (failAt : Option Nat) : FS :=
  writeSeq fs v persist_targets failAt

/-- Modelled from the spec (§4.3 Persist, the behaviour under check in
C3): write the new store to a temporary location, then atomically
replace the prior store; a failure leaves the file system unchanged at
the store path (only the authoritative columnar store is modelled). -/
def spec_atomic_persist (fs : FS) (v : Nat) (fail : Bool) : FS :=
  if fail then fs else fsSet fs parquet_path (.complete v)

/-- The character-level action of the six sequential replacements of
`normalize_text` (the replacement targets are never replacement sources,
so the sequential folds act pointwise). -/
def charFold (c : Char) : Char :=
  replacements.foldl (fun x p => if x = p.1 then p.2 else x) c

/-! ## Concrete inputs used by counterexamples and witnesses -/

/-- The record parsed from an empty raw object: empty timestamp, zero
duration, every other field null. -/
def nullRecord : SpotifyStreamingRecord :=
  SpotifyStreamingRecord.from_dict []

/-- A record whose track uri is the PRESENT empty string and whose
episode uri is "e". -/
def emptyUriRec : SpotifyStreamingRecord :=
  { nullRecord with
    ts := .str "t"
    ms_played := .int 1
    spotify_track_uri := .str ""
    spotify_episode_uri := .str "e" }

/-- A record with a null track uri and episode uri "e", otherwise the
same event data as `emptyUriRec`. -/
def nullUriRec : SpotifyStreamingRecord :=
  { nullRecord with
    ts := .str "t"
    ms_played := .int 1
    spotify_episode_uri := .str "e" }

/-- A dataframe row with every text column absent. -/
def blankRow : Row where
  ts := ⟨2024, 1, 0⟩
  ms_played := 0
  master_metadata_track_name := none
  master_metadata_album_artist_name := none
  master_metadata_album_album_name := none
  spotify_track_uri := none
  episode_name := none
  episode_show_name := none
  spotify_episode_uri := none
  audiobook_title := none
  audiobook_uri := none
  audiobook_chapter_title := none

/-- A song row with track uri "a" (used for a timestamp tie). -/
def rowA : Row :=
  { blankRow with ms_played := 1, spotify_track_uri := some ['a'] }

/-- A song row with track uri "b", same timestamp as `rowA`. -/
def rowB : Row :=
  { blankRow with ms_played := 1, spotify_track_uri := some ['b'] }

/-- A row with a present track uri and artist but a null track name. -/
def uriOnlyRow : Row :=
  { blankRow with
    ms_played := 1000
    spotify_track_uri := some ['u']
    master_metadata_album_artist_name := some ['a'] }

/-- A podcast row: episode fields present, track fields null. -/
def podRow : Row :=
  { blankRow with
    ms_played := 3600000
    episode_name := some ['p']
    episode_show_name := some ['s']
    spotify_episode_uri := some ['e'] }

/-- A song row with artist "x". -/
def artistRow : Row :=
  { blankRow with
    ms_played := 1
    master_metadata_track_name := some ['t']
    master_metadata_album_artist_name := some ['x']
    spotify_track_uri := some ['u'] }

/-- A song row named "a" by artist "b". -/
def trackRow : Row :=
  { blankRow with
    ms_played := 60000
    master_metadata_track_name := some ['a']
    master_metadata_album_artist_name := some ['b']
    spotify_track_uri := some ['u'] }

/-- A song row whose name "a b" contains a space. -/
def spaceNameRow : Row :=
  { blankRow with
    ms_played := 60000
    master_metadata_track_name := some ['a', Char.ofNat 32, 'b']
    master_metadata_album_artist_name := some ['c']
    spotify_track_uri := some ['v'] }

/-- A file system already holding version 1 of the store. -/
def fs0 : FS :=
  [(parquet_path, .complete 1)]

/-! ## Helper lemmas: the deduplication loop -/

theorem dedupLoop_sublist (seen : List (JVal × JVal × JVal))
    (l : List SpotifyStreamingRecord) : (dedupLoop seen l).Sublist l := by
  induction l generalizing seen with
  | nil => simp [dedupLoop]
  | cons r rs ih =>
    rw [dedupLoop]
    split
    · exact (ih seen).cons r
    · exact (ih _).cons₂ r

theorem mem_dedupLoop_not_seen {seen : List (JVal × JVal × JVal)}
    {l : List SpotifyStreamingRecord} {r' : SpotifyStreamingRecord}
    (h : r' ∈ dedupLoop seen l) : r'.get_unique_key ∉ seen := by
  induction l generalizing seen with
  | nil => simp [dedupLoop] at h
  | cons r rs ih =>
    rw [dedupLoop] at h
    split at h
    · exact ih h
    · rcases List.mem_cons.mp h with rfl | hmem
      · assumption
      · intro hk
        exact ih hmem (List.mem_cons_of_mem _ hk)

theorem dedupLoop_keys_nodup (seen : List (JVal × JVal × JVal))
    (l : List SpotifyStreamingRecord) :
    ((dedupLoop seen l).map fun r => r.get_unique_key).Nodup := by
  induction l generalizing seen with
  | nil => simp [dedupLoop]
  | cons r rs ih =>
    rw [dedupLoop]
    split
    · exact ih seen
    · refine List.nodup_cons.mpr ⟨?_, ih _⟩
      intro hk
      rcases List.mem_map.mp hk with ⟨r', hr', hkey⟩
      exact mem_dedupLoop_not_seen hr' (hkey ▸ List.mem_cons_self _ _)

theorem dedupLoop_covers {seen : List (JVal × JVal × JVal)}
    {l : List SpotifyStreamingRecord} {r : SpotifyStreamingRecord}
    (h : r ∈ l) (hk : r.get_unique_key ∉ seen) :
    ∃ r' ∈ dedupLoop seen l, r'.get_unique_key = r.get_unique_key := by
  induction l generalizing seen with
  | nil => simp at h
  | cons r₀ rs ih =>
    rw [dedupLoop]
    rcases List.mem_cons.mp h with rfl | hmem
    · rw [if_neg hk]
      exact ⟨r, List.mem_cons_self _ _, rfl⟩
    · by_cases h₀ : r₀.get_unique_key ∈ seen
      · rw [if_pos h₀]
        exact ih hmem hk
      · rw [if_neg h₀]
        by_cases heq : r.get_unique_key = r₀.get_unique_key
        · exact ⟨r₀, List.mem_cons_self _ _, heq.symm⟩
        · have hk' : r.get_unique_key ∉ r₀.get_unique_key :: seen := by
            intro hmem'
            rcases List.mem_cons.mp hmem' with h' | h'
            · exact heq h'
            · exact hk h'
          rcases ih hmem hk' with ⟨r', hr', hkey⟩
          exact ⟨r', List.mem_cons_of_mem _ hr', hkey⟩

theorem dedupLoop_first {seen : List (JVal × JVal × JVal)}
    {l : List SpotifyStreamingRecord} {r' : SpotifyStreamingRecord}
    (h : r' ∈ dedupLoop seen l) :
    l.find? (fun x => decide (x.get_unique_key = r'.get_unique_key)) = some r' := by
  induction l generalizing seen with
  | nil => simp [dedupLoop] at h
  | cons r rs ih =>
    rw [dedupLoop] at h
    split at h
    next hseen =>
      have hne : r'.get_unique_key ≠ r.get_unique_key := by
        intro heq
        exact mem_dedupLoop_not_seen h (heq ▸ hseen)
      rw [List.find?_cons_of_neg _ (by simpa using fun h' => hne h'.symm)]
      exact ih h
    next hseen =>
      rcases List.mem_cons.mp h with rfl | hmem
      · exact List.find?_cons_of_pos _ (by simp)
      · have hne : r'.get_unique_key ≠ r.get_unique_key := by
          intro heq
          exact mem_dedupLoop_not_seen hmem (heq ▸ List.mem_cons_self _ _)
        rw [List.find?_cons_of_neg _ (by simpa using fun h' => hne h'.symm)]
        exact ih hmem

/-- C1: deduplication keeps a record exactly when its identity key has
not appeared earlier — the output is a subsequence of the input, its
keys are pairwise distinct, every input key is represented, and each
kept record is the FIRST input record bearing its key.  The identity
key, however, derives its content uri by the Python or-chain on
truthiness (last conjunct), not by presence: a present-but-empty-string
uri is skipped (see the counterexample). -/
theorem deduplicate_records_keeps_first (l : List SpotifyStreamingRecord) :
    (deduplicate_records l).Sublist l ∧
    ((deduplicate_records l).map fun r => r.get_unique_key).Nodup ∧
    (∀ r ∈ l, ∃ r' ∈ deduplicate_records l,
      r'.get_unique_key = r.get_unique_key) ∧
    (∀ r' ∈ deduplicate_records l,
      l.find? (fun x => decide (x.get_unique_key = r'.get_unique_key)) = some r') ∧
    (∀ r : SpotifyStreamingRecord,
      r.get_unique_key = (r.ts,
        pyOr r.spotify_track_uri (pyOr r.spotify_episode_uri r.audiobook_uri),
        r.ms_played)) := by
  refine ⟨dedupLoop_sublist [] l, dedupLoop_keys_nodup [] l, ?_, ?_, fun r => rfl⟩
  · intro r hr
    exact dedupLoop_covers hr (by simp)
  · intro r' hr'
    exact dedupLoop_first hr'

/-- C1 witness: the first-kept characterization applied to a concrete
two-record input whose records share their identity key. -/
theorem deduplicate_records_keeps_first_witness :
    List.find?
      (fun x => decide (x.get_unique_key = emptyUriRec.get_unique_key))
      [emptyUriRec, nullUriRec] = some emptyUriRec :=
  (deduplicate_records_keeps_first [emptyUriRec, nullUriRec]).2.2.2.1
    emptyUriRec (by decide)

/-- C1 counterexample: with a present-but-empty track uri the code key
falls through to the episode uri (Python truthiness), so the two records
collide and the second is dropped, while under the claimed
presence-based content uri their keys differ and both survive. -/
theorem deduplicate_records_presence_counterexample :
    deduplicate_records [emptyUriRec, nullUriRec] = [emptyUriRec] ∧
    spec_deduplicate [emptyUriRec, nullUriRec] = [emptyUriRec, nullUriRec] ∧
    emptyUriRec.get_unique_key = nullUriRec.get_unique_key ∧
    spec_unique_key emptyUriRec ≠ spec_unique_key nullUriRec := by
  decide

/-- C9: a failing raw item is skipped with one warning and never aborts
the batch — the parsed output equals the well-formed subsequence parsed
in order, and warnings plus successes account for every input item. -/
theorem parse_records_partial_failure (items : List RawItem) :
    parse_records items = items.filterMap (fun i => (parseItem i).toOption) ∧
    parse_records items =
      ((items.filterMap fun i =>
        match i with
        | .obj d => some d
        | .nonObj _ => none).map SpotifyStreamingRecord.from_dict) ∧
    parse_records_warnings items + (parse_records items).length = items.length := by
  induction items with
  | nil => exact ⟨rfl, rfl, rfl⟩
  | cons i rest ih =>
    obtain ⟨h1, h2, h3⟩ := ih
    refine ⟨?_, ?_, ?_⟩
    · cases i <;> simp [parse_records, parseItem, Except.toOption, h1]
    · cases i <;> simp [parse_records, parseItem, h2]
    · cases i with
      | obj d =>
        have hw : parse_records_warnings (RawItem.obj d :: rest) =
            parse_records_warnings rest := by
          simp [parse_records_warnings, List.countP_cons, parseItem,
            Except.isOk, Except.toBool]
        have hp : parse_records (RawItem.obj d :: rest) =
            SpotifyStreamingRecord.from_dict d :: parse_records rest := by
          simp [parse_records, parseItem]
        rw [hw, hp, List.length_cons, List.length_cons]
        omega
      | nonObj t =>
        have hw : parse_records_warnings (RawItem.nonObj t :: rest) =
            parse_records_warnings rest + 1 := by
          simp [parse_records_warnings, List.countP_cons, parseItem,
            Except.isOk, Except.toBool]
        have hp : parse_records (RawItem.nonObj t :: rest) =
            parse_records rest := by
          simp [parse_records, parseItem]
        rw [hw, hp, List.length_cons]
        omega

/-- C10: a raw mapping without a "ts" key parses successfully, the
resulting record carries the empty string as its timestamp, and that
empty string is the timestamp component of its deduplication key. -/
theorem from_dict_missing_ts (d : List (String × JVal))
    (h : d.lookup "ts" = none) :
    parseItem (.obj d) = .ok (SpotifyStreamingRecord.from_dict d) ∧
    (SpotifyStreamingRecord.from_dict d).ts = .str "" ∧
    ((SpotifyStreamingRecord.from_dict d).get_unique_key).1 = .str "" := by
  refine ⟨rfl, ?_, ?_⟩ <;>
    simp [SpotifyStreamingRecord.from_dict, SpotifyStreamingRecord.get_unique_key,
      dget, h]

/-- C10 witness: a concrete mapping lacking "ts". -/
theorem from_dict_missing_ts_witness :
    parseItem (.obj [("ms_played", JVal.int 5)]) =
      .ok (SpotifyStreamingRecord.from_dict [("ms_played", JVal.int 5)]) ∧
    (SpotifyStreamingRecord.from_dict [("ms_played", JVal.int 5)]).ts = .str "" ∧
    ((SpotifyStreamingRecord.from_dict
      [("ms_played", JVal.int 5)]).get_unique_key).1 = .str "" :=
  from_dict_missing_ts [("ms_played", JVal.int 5)] (by decide)

/-! ## Helper lemmas: the text normalizer -/

theorem foldl_applyRepl (ps : List (Char × Char)) (s : List Char) :
    ps.foldl applyRepl s =
      s.map fun c => ps.foldl (fun x p => if x = p.1 then p.2 else x) c := by
  induction ps generalizing s with
  | nil => simp
  | cons p ps ih =>
    rw [List.foldl_cons, ih]
    simp only [applyRepl, List.map_map]
    exact List.map_congr_left fun c _ => rfl

theorem charFold_eq_normChar (c : Char) : charFold c = normChar c := by
  by_cases h1 : c = Char.ofNat 0x2019
  · subst h1; decide
  by_cases h2 : c = Char.ofNat 0x2018
  · subst h2; decide
  by_cases h3 : c = Char.ofNat 0x201C
  · subst h3; decide
  by_cases h4 : c = Char.ofNat 0x201D
  · subst h4; decide
  by_cases h5 : c = Char.ofNat 0x201E
  · subst h5; decide
  by_cases h6 : c = Char.ofNat 0x201F
  · subst h6; decide
  simp [charFold, replacements, normChar, h1, h2, h3, h4, h5, h6]

theorem normalizeStr_eq_map (s : List Char) : normalizeStr s = s.map normChar := by
  rw [normalizeStr, foldl_applyRepl]
  exact List.map_congr_left fun c _ => charFold_eq_normChar c

theorem normChar_normChar (c : Char) : normChar (normChar c) = normChar c := by
  by_cases h1 : c = Char.ofNat 0x2019 ∨ c = Char.ofNat 0x2018
  · have h : normChar c = apos := by rw [normChar, if_pos h1]
    rw [h]; decide
  by_cases h2 : c = Char.ofNat 0x201C ∨ c = Char.ofNat 0x201D ∨
      c = Char.ofNat 0x201E ∨ c = Char.ofNat 0x201F
  · have h : normChar c = quot := by rw [normChar, if_neg h1, if_pos h2]
    rw [h]; decide
  · have h : normChar c = c := by rw [normChar, if_neg h1, if_neg h2]
    rw [h, h]

theorem normChar_eq_self {c : Char} (h : c ∉ curlyChars) : normChar c = c := by
  simp only [curlyChars, List.mem_cons, List.not_mem_nil, or_false] at h
  push_neg at h
  obtain ⟨h1, h2, h3, h4, h5, h6⟩ := h
  rw [normChar, if_neg (by tauto), if_neg (by tauto)]

theorem normalizeStr_idem (s : List Char) :
    normalizeStr (normalizeStr s) = normalizeStr s := by
  rw [normalizeStr_eq_map, normalizeStr_eq_map, List.map_map]
  exact List.map_congr_left fun c _ => normChar_normChar c

/-- C4: normalization is a no-op on an absent value, acts pointwise by
`normChar` (so it alters no character other than the six curly quotes,
and preserves length and positions), is idempotent, leaves a string free
of the six code points unchanged, maps U+2018/U+2019 to the ASCII
apostrophe and U+201C/U+201D/U+201E/U+201F to the ASCII double quote,
and fixes every other character. -/
theorem normalize_text_props :
    normalize_text none = none ∧
    (∀ s : List Char, normalize_text (some s) = some (s.map normChar)) ∧
    (∀ x : Option (List Char), normalize_text (normalize_text x) = normalize_text x) ∧
    (∀ s : List Char, (∀ c ∈ s, c ∉ curlyChars) → normalizeStr s = s) ∧
    normChar (Char.ofNat 0x2018) = apos ∧
    normChar (Char.ofNat 0x2019) = apos ∧
    normChar (Char.ofNat 0x201C) = quot ∧
    normChar (Char.ofNat 0x201D) = quot ∧
    normChar (Char.ofNat 0x201E) = quot ∧
    normChar (Char.ofNat 0x201F) = quot ∧
    (∀ c : Char, c ∉ curlyChars → normChar c = c) := by
  refine ⟨rfl, ?_, ?_, ?_, by decide, by decide, by decide, by decide, by decide,
    by decide, fun c h => normChar_eq_self h⟩
  · intro s
    rw [show normalize_text (some s) = some (normalizeStr s) from rfl,
      normalizeStr_eq_map]
  · intro x
    cases x with
    | none => rfl
    | some s =>
      show some (normalizeStr (normalizeStr s)) = some (normalizeStr s)
      rw [normalizeStr_idem]
  · intro s h
    rw [normalizeStr_eq_map]
    calc s.map normChar = s.map id :=
          List.map_congr_left fun c hc => normChar_eq_self (h c hc)
      _ = s := List.map_id s

/-- C4 witness: the normalizer leaves the concrete curly-free string
"ca" unchanged (hypothesis of the no-op conjunct discharged by
computation). -/
theorem normalize_text_props_witness :
    normalizeStr [Char.ofNat 99, Char.ofNat 97] = [Char.ofNat 99, Char.ofNat 97] :=
  normalize_text_props.2.2.2.1 [Char.ofNat 99, Char.ofNat 97] (by decide)

/-! ## Helper lemmas: the file system -/

theorem fsGet_fsSet_self (fs : FS) (p : String) (d : FileData) :
    fsGet (fsSet fs p d) p = some d := by
  simp [fsGet, fsSet, List.lookup]

theorem fsGet_fsSet_ne (fs : FS) (p q : String) (d : FileData) (h : ¬ q = p) :
    fsGet (fsSet fs p d) q = fsGet fs q := by
  simp only [fsGet, fsSet, List.lookup]
  rw [show (q == p) = false from beq_eq_false_iff_ne.mpr h]

/-- C2 (amended): the persisted store is a permutation of the
normalized records that is ascending by timestamp (each adjacent pair
obeys ts[i] ≤ ts[i+1]); the order of rows with EQUAL timestamps is not
part of the guarantee — the sort the code requests is the pandas
default, documented as unstable (see the counterexample). -/
theorem create_dataframe_sorted (recs out : List Row)
    (h : create_dataframe recs out) :
    out.Chain' (fun a b => Dt.le a.ts b.ts) ∧ out.Perm (recs.map normalizeRow) :=
  ⟨h.2.chain', h.1⟩

/-- C2 witness: the sorted-output facts at a concrete one-row input. -/
theorem create_dataframe_sorted_witness :
    [rowA].Chain' (fun a b => Dt.le a.ts b.ts) ∧
      [rowA].Perm ([rowA].map normalizeRow) :=
  create_dataframe_sorted [rowA] [rowA] ⟨by decide, by simp⟩

/-- C2 counterexample: the sort relation the code relies on (any
permutation nondecreasing in the timestamp — pandas documents only the
non-default mergesort/stable kinds as stable) admits an output that
reverses two rows with equal timestamps, violating the claimed
encounter-order tie break. -/
theorem create_dataframe_stability_counterexample :
    create_dataframe [rowA, rowB] [rowB, rowA] ∧
    ¬ tiesInEncounterOrder [rowA, rowB] [rowB, rowA] := by
  constructor
  · refine ⟨by decide, ?_⟩
    simp [rowA, rowB, blankRow, Dt.le]
  · intro h
    have h0 := h ⟨2024, 1, 0⟩
    revert h0
    decide

/-- C3 (amended): persistence writes the new table DIRECTLY to the
final store path: an uninterrupted run ends with the complete new
store, but a failure during the store write leaves a torn
(half-written) file at the store path, and the previous store is not
preserved; the write-to-temp-then-replace persist described by the spec
leaves the prior store intact on failure. -/
theorem run_persist_direct (fs : FS) (v : Nat) :
    fsGet (run_persist fs v none) parquet_path = some (.complete v) ∧
    fsGet (run_persist fs v (some 0)) parquet_path = some (.torn v) ∧
    (∀ fail : Bool, fsGet (spec_atomic_persist fs v fail) parquet_path =
      if fail then fsGet fs parquet_path else some (.complete v)) := by
  refine ⟨?_, ?_, ?_⟩
  · simp only [run_persist, persist_targets, writeSeq]
    rw [fsGet_fsSet_ne _ _ _ _ (by decide), fsGet_fsSet_ne _ _ _ _ (by decide),
      fsGet_fsSet_self]
  · simp only [run_persist, persist_targets, writeSeq]
    exact fsGet_fsSet_self fs parquet_path (.torn v)
  · intro fail
    cases fail <;> simp [spec_atomic_persist, fsGet_fsSet_self]

/-- C3 counterexample: starting from a store holding complete version 1,
a failure during the direct store write leaves a torn version-2 file at
the store path — neither the previous store intact nor a complete new
one — while the atomic persist of the spec keeps version 1. -/
theorem run_persist_torn_counterexample :
    fsGet (run_persist fs0 2 (some 0)) parquet_path = some (.torn 2) ∧
    ¬ fsGet (run_persist fs0 2 (some 0)) parquet_path = some (.complete 1) ∧
    ¬ fsGet (run_persist fs0 2 (some 0)) parquet_path = some (.complete 2) ∧
    fsGet (spec_atomic_persist fs0 2 true) parquet_path = some (.complete 1) := by
  decide

/-! ## Helper lemmas: sums and unique counts -/

theorem sum_rowMinutes (f : List Row) :
    (f.map rowMinutes).sum = (((f.map fun r => r.ms_played).sum : Int) : ℚ) / 60000 := by
  induction f with
  | nil => simp
  | cons r rs ih =>
    simp only [List.map_cons, List.sum_cons, rowMinutes, ih]
    push_cast
    ring

theorem filterMap_filter_isSome {α β : Type} (g : α → Option β) (l : List α) :
    (l.filter fun a => (g a).isSome).filterMap g = l.filterMap g := by
  induction l with
  | nil => rfl
  | cons a l ih =>
    by_cases h : (g a).isSome
    · rw [List.filter_cons_of_pos (by simpa using h)]
      cases hg : g a with
      | none => simp [hg] at h
      | some b => simp [List.filterMap_cons, hg, ih]
    · rw [List.filter_cons_of_neg (by simpa using h)]
      have hg : g a = none := Option.not_isSome_iff_eq_none.mp h
      simp [List.filterMap_cons, hg, ih]

theorem mem_filterYear {year : Option Nat} {df : List Row} {r : Row}
    (hr : r ∈ filterYear year df) : r ∈ df := by
  cases year with
  | none => exact hr
  | some y => exact (List.mem_filter.mp hr).1

/-- C5 (amended): total_plays and total_hours range over ALL records of
the filtered subset (hours are the summed milliseconds over 3,600,000),
while the unique counts range over the records classified as songs by a
PRESENT TRACK NAME — not a present track uri as claimed (see the
counterexample): unique_songs counts distinct track names, unique_artists
counts distinct non-null artist names among rows with a track name; a
subset of podcast rows (all track names null) still yields zero unique
songs and artists with total_plays its full size. -/
theorem update_stats_props (year : Option Nat) (df : List Row) :
    (update_stats year df).total_plays = (filterYear year df).length ∧
    (update_stats year df).total_hours * 3600000 =
      ((((filterYear year df).map fun r => r.ms_played).sum : Int) : ℚ) ∧
    (update_stats year df).unique_songs =
      ((filterYear year df).filterMap fun r =>
        r.master_metadata_track_name).dedup.length ∧
    (update_stats year df).unique_artists =
      (((filterYear year df).filter fun r =>
        r.master_metadata_track_name.isSome).filterMap fun r =>
          r.master_metadata_album_artist_name).dedup.length ∧
    ((∀ r ∈ df, r.master_metadata_track_name = none) →
      (update_stats year df).unique_songs = 0 ∧
      (update_stats year df).unique_artists = 0 ∧
      (update_stats year df).total_plays = (filterYear year df).length) := by
  refine ⟨rfl, ?_, ?_, rfl, ?_⟩
  · show ((filterYear year df).map rowMinutes).sum / 60 * 3600000 = _
    rw [sum_rowMinutes, div_div,
      show (60000 : ℚ) * 60 = 3600000 by norm_num]
    exact div_mul_cancel₀ _ (by norm_num)
  · show (((filterYear year df).filter fun r =>
      r.master_metadata_track_name.isSome).filterMap fun r =>
        r.master_metadata_track_name).dedup.length = _
    rw [filterMap_filter_isSome (fun r : Row => r.master_metadata_track_name)
      (filterYear year df)]
  · intro h
    have hnil : ((filterYear year df).filter fun r =>
        r.master_metadata_track_name.isSome) = [] := by
      rw [List.filter_eq_nil_iff]
      intro r hr
      simp [h r (mem_filterYear hr)]
    refine ⟨?_, ?_, rfl⟩
    · show (((filterYear year df).filter fun r =>
        r.master_metadata_track_name.isSome).filterMap fun r =>
          r.master_metadata_track_name).dedup.length = 0
      rw [hnil]
      rfl
    · show (((filterYear year df).filter fun r =>
        r.master_metadata_track_name.isSome).filterMap fun r =>
          r.master_metadata_album_artist_name).dedup.length = 0
      rw [hnil]
      rfl

/-- C5 witness: the podcast-only conjunct applied to a concrete
one-podcast store. -/
theorem update_stats_props_witness :
    (update_stats none [podRow]).unique_songs = 0 ∧
    (update_stats none [podRow]).unique_artists = 0 ∧
    (update_stats none [podRow]).total_plays = (filterYear none [podRow]).length :=
  (update_stats_props none [podRow]).2.2.2.2 (by decide)

/-- C5 counterexample: a row with a present track uri but a null track
name carries an artist the claimed uri-based classification counts and
the code does not. -/
theorem update_stats_classification_counterexample :
    (update_stats none [uriOnlyRow]).unique_artists = 0 ∧
    (spec_summary_stats none [uriOnlyRow]).unique_artists = 1 ∧
    uriOnlyRow.spotify_track_uri.isSome = true := by
  decide

/-! ## Helper lemmas: month buckets -/

theorem periodLt_of_le_ne {a b : Nat × Nat} (hle : periodLeP a b)
    (hne : a ≠ b) : periodLt a b := by
  obtain ⟨a1, a2⟩ := a
  obtain ⟨b1, b2⟩ := b
  simp only [periodLeP, periodLe, decide_eq_true_eq] at hle
  simp only [ne_eq, Prod.mk.injEq, not_and] at hne
  simp only [periodLt]
  omega

theorem monthKeys_nodup (df : List Row) : (monthKeys df).Nodup :=
  (List.perm_insertionSort periodLeP _).symm.nodup (List.nodup_dedup _)

theorem monthKeys_sorted (df : List Row) :
    (monthKeys df).Pairwise periodLeP :=
  List.sorted_insertionSort periodLeP _

theorem monthKeys_pairwise_lt (df : List Row) :
    (monthKeys df).Pairwise periodLt :=
  ((monthKeys_sorted df).and (monthKeys_nodup df)).imp
    fun h => periodLt_of_le_ne h.1 h.2

theorem mem_monthKeys {df : List Row} {m : Nat × Nat} :
    m ∈ monthKeys df ↔ ∃ r ∈ df, r.ts.period = m := by
  unfold monthKeys
  rw [List.mem_insertionSort, List.mem_dedup, List.mem_map]

/-- C6 (amended): the monthly trend buckets every record by the
calendar year-month of its timestamp; buckets appear in strictly
increasing chronological order; a month appears exactly when some
record falls in it (empty months are simply absent, never zero-filled);
each bucket sums played duration over ALL of its records, but the
per-bucket play count counts only the records with a non-null track
name — podcast and audiobook rows contribute duration yet are excluded
from the play count (see the counterexample). -/
theorem update_trends_props (df : List Row) :
    ((update_trends df).map fun t => t.month).Pairwise periodLt ∧
    (∀ m : Nat × Nat, (m ∈ (update_trends df).map fun t => t.month) ↔
      ∃ r ∈ df, r.ts.period = m) ∧
    (∀ t ∈ update_trends df,
      t.total_ms = ((df.filter fun r => decide (r.ts.period = t.month)).map
        fun r => r.ms_played).sum ∧
      t.plays = (df.filter fun r =>
        decide (r.ts.period = t.month) &&
          r.master_metadata_track_name.isSome).length) := by
  have hmap : ((update_trends df).map fun t => t.month) = monthKeys df := by
    unfold update_trends
    rw [List.map_map]
    exact (List.map_congr_left fun m _ => rfl).trans (List.map_id _)
  refine ⟨?_, ?_, ?_⟩
  · rw [hmap]
    exact monthKeys_pairwise_lt df
  · intro m
    rw [hmap]
    exact mem_monthKeys
  · intro t ht
    unfold update_trends at ht
    rcases List.mem_map.mp ht with ⟨m, _, rfl⟩
    exact ⟨rfl, rfl⟩

/-- C6 witness: the bucket facts at a concrete one-podcast store. -/
theorem update_trends_props_witness :
    ({ month := (2024, 1), total_ms := 3600000, plays := 0 } : TrendRow).total_ms =
      (([podRow].filter fun r => decide (r.ts.period = (2024, 1))).map
        fun r => r.ms_played).sum ∧
    ({ month := (2024, 1), total_ms := 3600000, plays := 0 } : TrendRow).plays =
      ([podRow].filter fun r => decide (r.ts.period = (2024, 1)) &&
        r.master_metadata_track_name.isSome).length :=
  (update_trends_props [podRow]).2.2
    { month := (2024, 1), total_ms := 3600000, plays := 0 } (by decide)

/-- C6 counterexample: a month bucket holding exactly one (podcast)
record reports zero plays, refuting the claim that plays are counted
over every record regardless of content type. -/
theorem update_trends_plays_counterexample :
    update_trends [podRow] =
      [{ month := (2024, 1), total_ms := 3600000, plays := 0 }] ∧
    ([podRow].filter fun r => decide (r.ts.period = (2024, 1))).length = 1 := by
  decide

/-- C7 (amended): in the dashboard callback a missing or non-positive
top_n falls back to 10 (capped at 100), and the result length is the
minimum of the adjusted n and the number of artist groups — asking for
more groups than exist returns them all; in the CLI script a missing
top_n defaults to 10 through the parameter default and an n exceeding
the group count returns all groups, but top_n = 0 returns NO groups
(not the documented default of 10) and a negative top_n returns all but
the last |n| groups (see the counterexample). -/
theorem top_n_boundary :
    (∀ (year : Option Nat) (df : List Row),
      update_top_artists year none df = update_top_artists year (some 10) df) ∧
    (∀ (year : Option Nat) (df : List Row) (k : Int), k ≤ 0 →
      update_top_artists year (some k) df = update_top_artists year (some 10) df) ∧
    (∀ (year : Option Nat) (tn : Option Int) (df : List Row),
      (update_top_artists year tn df).length =
        min (adjust_top_n tn).toNat
          ((artistKeys ((filterYear year df).filter fun r =>
            r.master_metadata_album_artist_name.isSome)).length)) ∧
    (∀ (year : Option Nat) (df : List Row) (n : Int), 0 ≤ n →
      (get_top_artists year n df).length =
        min n.toNat
          ((artistKeys ((filterYear year df).filter fun r =>
            r.master_metadata_album_artist_name.isSome)).length)) ∧
    (∀ (year : Option Nat) (df : List Row) (n : Int), n < 0 →
      (get_top_artists year n df).length =
        ((artistKeys ((filterYear year df).filter fun r =>
          r.master_metadata_album_artist_name.isSome)).length) - (-n).toNat) := by
  refine ⟨?_, ?_, ?_, ?_, ?_⟩
  · intro year df
    have h : adjust_top_n none = adjust_top_n (some 10) := by norm_num [adjust_top_n]
    unfold update_top_artists
    rw [h]
  · intro year df k hk
    have h : adjust_top_n (some k) = adjust_top_n (some 10) := by
      simp only [adjust_top_n]
      rw [if_pos (by omega), if_neg (by norm_num)]
    unfold update_top_artists
    rw [h]
  · intro year tn df
    unfold update_top_artists
    simp [List.length_take, List.length_insertionSort, List.length_map]
  · intro year df n hn
    unfold get_top_artists pdHead
    rw [if_pos hn]
    simp [List.length_take, List.length_insertionSort, List.length_map]
  · intro year df n hn
    unfold get_top_artists pdHead
    rw [if_neg (by omega)]
    simp [List.length_take, List.length_insertionSort, List.length_map]

/-- C7 witness: the CLI length formula at a concrete one-artist store
with n = 0 (the hypothesis 0 ≤ 0 discharged by computation). -/
theorem top_n_boundary_witness :
    (get_top_artists none 0 [artistRow]).length =
      min ((0 : Int)).toNat
        ((artistKeys ((filterYear none [artistRow]).filter fun r =>
          r.master_metadata_album_artist_name.isSome)).length) :=
  top_n_boundary.2.2.2.1 none [artistRow] 0 (by norm_num)

/-- C7 counterexample: with one artist group, the CLI query returns zero
groups for n = 0 instead of falling back to the documented default of 10
(which would return the single group). -/
theorem top_n_zero_counterexample :
    (get_top_artists none 0 [artistRow]).length = 0 ∧
    (get_top_artists none 10 [artistRow]).length = 1 := by
  decide

/-! ## Helper lemmas: search groups -/

theorem pairKey_eq_some {r : Row} {t a : List Char} :
    (match r.master_metadata_track_name, r.master_metadata_album_artist_name with
      | some t', some a' => some (t', a')
      | _, _ => none) = some (t, a) ↔
      r.master_metadata_track_name = some t ∧
        r.master_metadata_album_artist_name = some a := by
  rcases htn : r.master_metadata_track_name with _ | t' <;>
    rcases han : r.master_metadata_album_artist_name with _ | a' <;>
      simp

theorem mem_pairKeys {rows : List Row} {t a : List Char} :
    (t, a) ∈ pairKeys rows ↔
      ∃ r ∈ rows, r.master_metadata_track_name = some t ∧
        r.master_metadata_album_artist_name = some a := by
  unfold pairKeys
  rw [List.mem_insertionSort, List.mem_dedup, List.mem_filterMap]
  constructor
  · rintro ⟨r, hr, hm⟩
    exact ⟨r, hr, pairKey_eq_some.mp hm⟩
  · rintro ⟨r, hr, h1, h2⟩
    exact ⟨r, hr, pairKey_eq_some.mpr ⟨h1, h2⟩⟩

theorem mem_songGroup_pairs (rows : List Row)
    (le : SongGroup → SongGroup → Prop) [DecidableRel le] (t a : List Char) :
    ((t, a) ∈ ((groupSongArtist rows).insertionSort le).map
      fun g => (g.song, g.artist)) ↔
      ∃ r ∈ rows, r.master_metadata_track_name = some t ∧
        r.master_metadata_album_artist_name = some a := by
  rw [← mem_pairKeys]
  rw [List.mem_map]
  constructor
  · rintro ⟨g, hg, hproj⟩
    rw [List.mem_insertionSort] at hg
    unfold groupSongArtist at hg
    rcases List.mem_map.mp hg with ⟨p, hp, rfl⟩
    have hpta : p = (t, a) := by
      obtain ⟨p1, p2⟩ := p
      simpa using hproj
    exact hpta ▸ hp
  · intro hp
    refine ⟨({ song := t,
               artist := a,
               total_ms := ((rows.filter fun r =>
                 decide (r.master_metadata_track_name = some t ∧
                   r.master_metadata_album_artist_name = some a)).map
                 fun r => r.ms_played).sum,
               plays := (rows.filter fun r =>
                 decide (r.master_metadata_track_name = some t ∧
                   r.master_metadata_album_artist_name = some a)).length } :
        SongGroup), ?_, rfl⟩
    rw [List.mem_insertionSort]
    unfold groupSongArtist
    exact List.mem_map.mpr ⟨(t, a), hp, rfl⟩

/-- C8 (amended): in the dashboard an absent or empty query returns the
empty result, but a whitespace-only query is not special-cased — it is
searched literally like any other string; the CLI song search applies
the substring filter even to the empty query, and since the empty
string is an infix of every string, an empty query matches EVERY track
record instead of returning an empty result (see the counterexample). -/
theorem search_empty_query_props :
    (∀ (df : List Row) (n : Nat), search_song n none df = []) ∧
    (∀ (df : List Row) (n : Nat), search_song n (some []) df = []) ∧
    (∀ (df : List Row) (r : Row) (t a : List Char), r ∈ df →
      r.master_metadata_track_name = some t →
      r.spotify_track_uri.isSome = true →
      r.master_metadata_album_artist_name = some a →
      ((t, a) ∈ (get_song_stats false [] df).map fun g => (g.song, g.artist))) ∧
    (∀ (df : List Row) (n : Nat) (q : List Char) (r : Row) (t a : List Char),
      q ≠ [] → r ∈ df →
      r.master_metadata_track_name = some t →
      r.master_metadata_album_artist_name = some a →
      containsPy (lowerPy t) (lowerPy q) = true →
      ((t, a) ∈ (search_song (n + 1) (some q) df).map
        fun g => (g.song, g.artist))) := by
  refine ⟨fun df n => rfl, ?_, ?_, ?_⟩
  · intro df n
    simp [search_song]
  · intro df r t a hr ht hu ha
    unfold get_song_stats
    rw [mem_songGroup_pairs]
    refine ⟨r, ?_, ht, ha⟩
    rw [List.mem_filter]
    refine ⟨List.mem_filter.mpr ⟨hr, ?_⟩, ?_⟩
    · rw [ht]
      simp [hu]
    · rw [ht]
      simp [containsPy, lowerPy, List.nil_infix]
  · intro df n q r t a hq hr ht ha hc
    simp only [search_song]
    rw [if_neg (by simp [hq])]
    rw [mem_songGroup_pairs]
    refine ⟨r, ?_, ht, ha⟩
    rw [List.mem_filter]
    refine ⟨hr, ?_⟩
    rw [ht]
    exact hc

/-- C8 witness: the empty-query CLI conjunct applied to a concrete
one-track store. -/
theorem search_empty_query_props_witness :
    (((['a'], ['b']) : List Char × List Char) ∈
      (get_song_stats false [] [trackRow]).map fun g => (g.song, g.artist)) :=
  search_empty_query_props.2.2.1 [trackRow] trackRow ['a'] ['b']
    (List.mem_singleton.mpr rfl) rfl rfl rfl

/-- C8 counterexample: the CLI search with the empty query returns the
single track group of a one-track store (matching everything), and the
dashboard search treats the whitespace-only query " " as a literal
substring, matching the track named "a b" — in both cases the claimed
empty result fails. -/
theorem search_empty_query_counterexample :
    (get_song_stats false [] [trackRow]).length = 1 ∧
    (search_song 1 (some [Char.ofNat 32]) [spaceNameRow]).length = 1 := by
  decide

end SpotifyWrapped
